import Mathlib

/-!
Verification development for the rpgp OpenPGP library core.

The embedding covers `src/crypto/public_key.rs` (the `PublicKeyAlgorithm`
enum, the `PublicParams` tagged variant, its `Serialize::to_writer` and its
`Debug` formatter) and `src/composed/key/shared.rs` (`KeyDetails` and
`KeyDetails::sign`).  Byte strings are `List Nat` with each element an octet;
big integers (`BigUint`) are `Nat`.  The writer side of `to_writer` is pure
accumulation into a byte list (writing to an in-memory buffer cannot fail).
External collaborators that live outside the translated sources are modelled
from the specification and carry a doc comment saying so.
-/

/-! ## Byte-level helpers (external collaborators of the codec) -/

/-- Modelled from the spec: number of significant bits of a non-negative
integer (§4.1: "the number of significant bits", zero having none).  The
first argument is structural fuel; `n` itself always suffices. -/
def bitLengthAux : Nat → Nat → Nat
  | 0, _ => 0
  | fuel + 1, n => if n = 0 then 0 else bitLengthAux fuel (n / 2) + 1

/-- Modelled from the spec: bit length of a `BigUint` (the `bits()` method of
the external bignum crate). -/
def bitLength (n : Nat) : Nat := bitLengthAux n n

/-- Modelled from the spec: minimal big-endian magnitude octets of a
non-negative integer, leading zero octets stripped, empty for zero
(§4.1: "⌈L/8⌉ octets of big-endian magnitude").  Fuel-structured as above. -/
def magBytesAux : Nat → Nat → List Nat
  | 0, _ => []
  | fuel + 1, n => if n = 0 then [] else magBytesAux fuel (n / 256) ++ [n % 256]

/-- Modelled from the spec: minimal big-endian magnitude octets, empty for
zero. -/
def magBytes (n : Nat) : List Nat := magBytesAux n n

/-- Modelled from the spec: `to_bytes_be` of the external bignum crate, which
returns the single octet `0` for zero and the minimal big-endian magnitude
otherwise. -/
def toBytesBe (n : Nat) : List Nat := if n = 0 then [0] else magBytes n

/-- Two-octet big-endian encoding of a length value. -/
def be16 (l : Nat) : List Nat := [l / 256 % 256, l % 256]

/-- Modelled from the spec: `util::write_bignum_mpi` (§4.1): a 2-octet
big-endian bit length followed by the stripped big-endian magnitude; zero
encodes as length 0 with no body. -/
def write_bignum_mpi (n : Nat) : List Nat := be16 (bitLength n) ++ magBytes n

/-- Modelled from the spec: `util::write_mpi` (§4.1): prefixes an
already-formatted opaque octet string with its bit length (computed from the
leading octet) and emits the octets unchanged, so that ECC points keeping the
`0x04` marker are not stripped. -/
def write_mpi (bytes : List Nat) : List Nat :=
  match bytes with
  | [] => be16 0
  | b :: rest => be16 (bitLength b + 8 * rest.length) ++ (b :: rest)

/-- Modelled from the spec: `hex::encode` of the external hex crate, two
lowercase hex digits per octet. -/
def hexDigit (n : Nat) : Char := if n < 10 then Char.ofNat (48 + n) else Char.ofNat (87 + n)

/-- Modelled from the spec: hex encoding of an octet string. -/
def hexEncode (bytes : List Nat) : String :=
  String.mk (bytes.foldr (fun b acc => hexDigit (b / 16 % 16) :: hexDigit (b % 16) :: acc) [])

/-! ## External algorithm identifier enums

These enums live in `crypto/hash.rs`, `crypto/sym.rs` and
`crypto/ecc_curve.rs`, which are outside the translated sources. -/

/-- Modelled from the spec: the external `HashAlgorithm` identifiers
(RFC 4880 §9.4); §8 scenario 2 of the spec pins SHA256 to octet 8. -/
inductive HashAlgorithm where
  | MD5
  | SHA1
  | RIPEMD160
  | SHA256
  | SHA384
  | SHA512
  | SHA224
  deriving DecidableEq

/-- Modelled from the spec: the octet value of a hash algorithm identifier
(the `as u8` cast in the source). -/
def HashAlgorithm.toU8 : HashAlgorithm → Nat
  | .MD5 => 1
  | .SHA1 => 2
  | .RIPEMD160 => 3
  | .SHA256 => 8
  | .SHA384 => 9
  | .SHA512 => 10
  | .SHA224 => 11

/-- Modelled from the spec: the external `SymmetricKeyAlgorithm` identifiers
(RFC 4880 §9.2); §8 scenario 2 of the spec pins AES128 to octet 7. -/
inductive SymmetricKeyAlgorithm where
  | Plaintext
  | IDEA
  | TripleDES
  | CAST5
  | Blowfish
  | AES128
  | AES192
  | AES256
  | Twofish
  deriving DecidableEq

/-- Modelled from the spec: the octet value of a symmetric algorithm
identifier (the `as u8` cast in the source). -/
def SymmetricKeyAlgorithm.toU8 : SymmetricKeyAlgorithm → Nat
  | .Plaintext => 0
  | .IDEA => 1
  | .TripleDES => 2
  | .CAST5 => 3
  | .Blowfish => 4
  | .AES128 => 7
  | .AES192 => 8
  | .AES256 => 9
  | .Twofish => 10

/-- Modelled from the spec: the external `CompressionAlgorithm` identifiers
(§3 names the preference list over them). -/
inductive CompressionAlgorithm where
  | Uncompressed
  | ZIP
  | ZLIB
  | BZip2
  deriving DecidableEq

/-- Modelled from the spec: the external `ECCCurve` type (§3: "curve
identifier (by OID)"); the serializer only uses its `oid()` accessor. -/
structure ECCCurve where
  oid : List Nat
  deriving DecidableEq

/-- Modelled from the spec: the curve 25519 value of `ECCCurve`, whose OID is
1.3.6.1.4.1.3029.1.5.1. -/
def curve25519 : ECCCurve := { oid := [43, 6, 1, 4, 1, 151, 85, 1, 5, 1] }

/-! ## `PublicKeyAlgorithm` (src/crypto/public_key.rs lines 12-48) -/

/-- The `PublicKeyAlgorithm` enum of the source, one constructor per
declared variant. -/
inductive PublicKeyAlgorithm where
  | RSA
  | RSAEncrypt
  | RSASign
  | ElgamalSign
  | DSA
  | ECDH
  | ECDSA
  | Elgamal
  | DiffieHellman
  | EdDSA
  | Private100
  | Private101
  | Private102
  | Private103
  | Private104
  | Private105
  | Private106
  | Private107
  | Private108
  | Private109
  | Private110
  deriving DecidableEq

/-- Conversion of an octet to `PublicKeyAlgorithm`, as derived by
`FromPrimitive` on the source enum: succeeds exactly on the declared
discriminants. -/
def PublicKeyAlgorithm.from_u8 : Nat → Option PublicKeyAlgorithm
  | 1 => some .RSA
  | 2 => some .RSAEncrypt
  | 3 => some .RSASign
  | 16 => some .ElgamalSign
  | 17 => some .DSA
  | 18 => some .ECDH
  | 19 => some .ECDSA
  | 20 => some .Elgamal
  | 21 => some .DiffieHellman
  | 22 => some .EdDSA
  | 100 => some .Private100
  | 101 => some .Private101
  | 102 => some .Private102
  | 103 => some .Private103
  | 104 => some .Private104
  | 105 => some .Private105
  | 106 => some .Private106
  | 107 => some .Private107
  | 108 => some .Private108
  | 109 => some .Private109
  | 110 => some .Private110
  | _ => none

/-! ## `PublicParams` and its serializer (src/crypto/public_key.rs) -/

/-- The `PublicParams` tagged variant of the source. -/
inductive PublicParams where
  | RSA (n e : Nat)
  | DSA (p q g y : Nat)
  | ECDSA (curve : ECCCurve) (p : List Nat)
  | ECDH (curve : ECCCurve) (p : List Nat) (hash : HashAlgorithm)
      (alg_sym : SymmetricKeyAlgorithm)
  | Elgamal (p g y : Nat)
  | EdDSA (curve : ECCCurve) (q : List Nat)
  deriving DecidableEq

/-- The `Serialize::to_writer` implementation for `PublicParams`, with the
writer modelled as byte-list accumulation.  The `oid.len() as u8` cast is the
`% 256`. -/
def PublicParams.to_writer : PublicParams → List Nat
  | .RSA n e => write_bignum_mpi n ++ write_bignum_mpi e
  | .DSA p q g y =>
      write_bignum_mpi p ++ write_bignum_mpi q ++ write_bignum_mpi g ++ write_bignum_mpi y
  | .ECDSA curve p => [curve.oid.length % 256] ++ curve.oid ++ write_mpi p
  | .ECDH curve p hash alg_sym =>
      [curve.oid.length % 256] ++ curve.oid ++ write_mpi p ++
        [3, 1, hash.toU8, alg_sym.toU8]
  | .Elgamal p g y => write_bignum_mpi p ++ write_bignum_mpi g ++ write_bignum_mpi y
  | .EdDSA curve q => [curve.oid.length % 256] ++ curve.oid ++ write_mpi q

/-- Values rendered by the `Debug` formatter: hex strings for integer and
point material, and the derived rendering of the external enums. -/
inductive DebugValue where
  | str : String → DebugValue
  | curve : ECCCurve → DebugValue
  | hashAlg : HashAlgorithm → DebugValue
  | symAlg : SymmetricKeyAlgorithm → DebugValue
  deriving DecidableEq

/-- The `fmt::Debug` implementation for `PublicParams`, modelled as the
struct name and the ordered field list each `debug_struct` call produces.
The field values are exactly the expressions of the source, including the
`DSA` and `Elgamal` arms pairing field name `g` with the hex of `y` and field
name `y` with the hex of `g`, and the `ECDH` arm reusing the struct name
`PublicParams::ECDSA`. -/
def PublicParams.debugStruct : PublicParams → String × List (String × DebugValue)
  | .RSA n e =>
      ("PublicParams::RSA",
        [("n", .str (hexEncode (toBytesBe n))), ("e", .str (hexEncode (toBytesBe e)))])
  | .DSA p q g y =>
      ("PublicParams::DSA",
        [("p", .str (hexEncode (toBytesBe p))),
         ("q", .str (hexEncode (toBytesBe q))),
         ("g", .str (hexEncode (toBytesBe y))),
         ("y", .str (hexEncode (toBytesBe g)))])
  | .ECDSA curve p =>
      ("PublicParams::ECDSA", [("curve", .curve curve), ("p", .str (hexEncode p))])
  | .ECDH curve p hash alg_sym =>
      ("PublicParams::ECDSA",
        [("curve", .curve curve), ("hash", .hashAlg hash), ("alg_sym", .symAlg alg_sym),
         ("p", .str (hexEncode p))])
  | .Elgamal p g y =>
      ("PublicParams::Elgamal",
        [("p", .str (hexEncode (toBytesBe p))),
         ("g", .str (hexEncode (toBytesBe y))),
         ("y", .str (hexEncode (toBytesBe g)))])
  | .EdDSA curve q =>
      ("PublicParams::EdDSA", [("curve", .curve curve), ("q", .str (hexEncode q))])

/-! ## Outcome monad for the signing pipeline

Rust code in `KeyDetails::sign` can finish three ways: a panic (the `expect`
call), an `Err` returned through the `?` operator, or an `Ok` value.  `Run ε α`
makes the three outcomes explicit; `ε` is the error type of the external
`errors::Result`. -/

inductive Run (ε α : Type) where
  | abort : String → Run ε α
  | err : ε → Run ε α
  | ok : α → Run ε α
  deriving DecidableEq

/-- Sequencing in `Run`: a panic or an early `Err` return short-circuits. -/
def Run.bind {ε α β : Type} : Run ε α → (α → Run ε β) → Run ε β
  | .abort m, _ => .abort m
  | .err e, _ => .err e
  | .ok a, f => f a

/-- The `Option::expect` call of the source: panics with its message on
`None`. -/
def Run.expect {ε α : Type} : Option α → String → Run ε α
  | some a, _ => .ok a
  | none, m => .abort m

/-- The `?` operator applied to an `errors::Result` value. -/
def Run.ofExcept {ε α : Type} : Except ε α → Run ε α
  | .error e => .err e
  | .ok a => .ok a

/-- The `Iterator::map` and `collect::<Result<Vec<_>>>` combination of the
source: certifications run left to right and the first panic or error stops
the traversal. -/
def Run.mapM {ε α β : Type} (f : α → Run ε β) : List α → Run ε (List β)
  | [] => .ok []
  | a :: rest =>
      Run.bind (f a) fun b =>
        Run.bind (Run.mapM f rest) fun bs => .ok (b :: bs)

/-! ## Packet-layer types used by `KeyDetails::sign`

`Subpacket`, `SignatureType`, the signature configuration builder and the
signed containers live in `packet/` and `composed/`, outside the translated
sources; they are modelled from the data model of the spec (§3, §4.3, §4.7). -/

/-- Modelled from the spec: an 8-octet key id (§3). -/
abbrev KeyId := List Nat

/-- Modelled from the spec: `RevocationKey` is a class octet, an algorithm
octet and a 20-octet fingerprint (§3). -/
structure RevocationKey where
  cls : Nat
  algorithm : Nat
  fingerprint : List Nat
  deriving DecidableEq

/-- Modelled from the spec: the subpacket variants `KeyDetails::sign` uses
(§4.3 lists the recognized subpacket types). -/
inductive Subpacket where
  | IsPrimary : Bool → Subpacket
  | SignatureCreationTime : Nat → Subpacket
  | KeyFlags : List Nat → Subpacket
  | PreferredSymmetricAlgorithms : List SymmetricKeyAlgorithm → Subpacket
  | PreferredHashAlgorithms : List HashAlgorithm → Subpacket
  | PreferredCompressionAlgorithms : List CompressionAlgorithm → Subpacket
  | RevocationKey : RevocationKey → Subpacket
  | Issuer : KeyId → Subpacket
  | IssuerFingerprint : List Nat → Subpacket
  deriving DecidableEq

/-- Modelled from the spec: the signature types of the fixed enumeration in
§3 that the certifier and its callers name. -/
inductive SignatureType where
  | CertGeneric
  | CertPersona
  | CertCasual
  | CertPositive
  | SubkeyBinding
  | KeyRevocation
  | CertRevocation
  deriving DecidableEq

/-- Modelled from the spec: packet tags of the entities being certified
(`id.tag()` in the source). -/
inductive Tag where
  | UserId
  | UserAttribute
  deriving DecidableEq

/-- The `UserId` packet: a UTF-8 string with its packet tag (§3). -/
structure UserId where
  id : String
  deriving DecidableEq

/-- The packet tag of a user id. -/
def UserId.tag (_ : UserId) : Tag := Tag.UserId

/-- Modelled from the spec: `UserAttribute` is a tag-prefixed opaque payload
(§3). -/
structure UserAttribute where
  payload : List Nat
  deriving DecidableEq

/-- The packet tag of a user attribute. -/
def UserAttribute.tag (_ : UserAttribute) : Tag := Tag.UserAttribute

/-- Modelled from the spec: the signing key as seen through
`SecretKeyTrait` — the only methods `KeyDetails::sign` calls are
`algorithm()`, `key_id()` (which may be missing) and `fingerprint()`. -/
structure SecretKey where
  key_id : Option KeyId
  fingerprint : List Nat
  algorithm : PublicKeyAlgorithm

/-- Modelled from the spec: the configuration assembled by
`SignatureConfigBuilder` before signing.  The builder `build()` call can only
fail on an unset field and every field is set at both call sites, so building
is modelled as plain construction. -/
structure SignatureConfig where
  typ : SignatureType
  pub_alg : PublicKeyAlgorithm
  hashed_subpackets : List Subpacket
  unhashed_subpackets : List Subpacket

/-- The entity a certification covers, as passed to `sign_certificate`. -/
inductive CertData where
  | user : UserId → CertData
  | attr : UserAttribute → CertData

/-- The primitive signing engine (spec §6): given the configuration, the
password produced by the callback, the packet tag and the certified entity it
either fails or yields the algorithm-specific signature MPI octets. -/
def Engine (ε : Type) : Type :=
  SignatureConfig → String → Tag → CertData → Except ε (List Nat)

/-- Modelled from the spec: a signature packet as §3 describes it, restricted
to the fields the certifier fills: type, public-key algorithm, the two
subpacket areas and the signature MPIs. -/
structure Signature where
  typ : SignatureType
  pub_alg : PublicKeyAlgorithm
  hashed_subpackets : List Subpacket
  unhashed_subpackets : List Subpacket
  sig_bytes : List Nat

/-- Modelled from the spec: `SignatureConfig::sign_certificate` (§4.5 and
§4.7): drives the hash and the primitive engine over the to-be-hashed
sequence and stores the resulting MPIs in a signature that carries the
configuration type, algorithm and subpacket areas verbatim.  The engine is
abstract and may fail. -/
def SignatureConfig.sign_certificate {ε : Type} (eng : Engine ε)
    (config : SignatureConfig) (pw : String) (tag : Tag) (data : CertData) :
    Except ε Signature :=
  match eng config pw tag data with
  | .error e => .error e
  | .ok mpis =>
      .ok { typ := config.typ, pub_alg := config.pub_alg,
            hashed_subpackets := config.hashed_subpackets,
            unhashed_subpackets := config.unhashed_subpackets,
            sig_bytes := mpis }

/-- A user id paired with its certification (`id.into_signed(sig)`). -/
structure SignedUser where
  id : UserId
  sig : Signature

/-- Modelled from the spec: `UserId::into_signed` pairs the id with the
certification just produced. -/
def UserId.into_signed (id : UserId) (sig : Signature) : SignedUser :=
  { id := id, sig := sig }

/-- A user attribute paired with its certification. -/
structure SignedUserAttribute where
  attr : UserAttribute
  sig : Signature

/-- Modelled from the spec: the `SignedKeyDetails` container filled at the
end of `KeyDetails::sign`. -/
structure SignedKeyDetails where
  revocation_signatures : List Signature
  direct_signatures : List Signature
  users : List SignedUser
  user_attributes : List SignedUserAttribute

/-! ## `KeyDetails` and `KeyDetails::sign` (src/composed/key/shared.rs)

The clock read `chrono::Utc::now()` is, per the design note of §9, a
caller-visible clock abstraction; it is the `now` parameter.  The `KeyFlags`
into `Vec<u8>` conversion is external, so the flags field is carried as its
octet list directly.  The password callback is a `String` handed to the
engine on each certification. -/

/-- The `KeyDetails` struct of the source. -/
structure KeyDetails where
  primary_user_id : UserId
  user_ids : List UserId
  user_attributes : List UserAttribute
  keyflags : List Nat
  preferred_symmetric_algorithms : List SymmetricKeyAlgorithm
  preferred_hash_algorithms : List HashAlgorithm
  preferred_compression_algorithms : List CompressionAlgorithm
  revocation_key : Option RevocationKey

/-- The optional `RevocationKey` subpacket appended to the primary
certification hashed area when the `KeyDetails` carries a revocation key
(the `if let Some(rkey)` push in the source). -/
def rkeySubpackets : Option RevocationKey → List Subpacket
  | some rkey => [Subpacket.RevocationKey rkey]
  | none => []

/-- The primary user id block of `KeyDetails::sign` (shared.rs lines 60-88):
hashed subpackets `IsPrimary(true)`, creation time, key flags and the three
preference lists, with `RevocationKey` pushed when present; unhashed
subpackets `Issuer` (where the missing key id panics) and
`IssuerFingerprint`; type `CertGeneric`; then `sign_certificate` and
`into_signed`. -/
def certify_primary_user {ε : Type} (eng : Engine ε) (now : Nat)
    (key : SecretKey) (pw : String) (keyflags : List Nat)
    (psa : List SymmetricKeyAlgorithm) (pha : List HashAlgorithm)
    (pca : List CompressionAlgorithm) (revocation_key : Option RevocationKey)
    (id : UserId) : Run ε SignedUser :=
  let hashed_subpackets :=
    [Subpacket.IsPrimary true,
     Subpacket.SignatureCreationTime now,
     Subpacket.KeyFlags keyflags,
     Subpacket.PreferredSymmetricAlgorithms psa,
     Subpacket.PreferredHashAlgorithms pha,
     Subpacket.PreferredCompressionAlgorithms pca] ++
      rkeySubpackets revocation_key
  Run.bind (Run.expect key.key_id "missing key id") fun kid =>
    let config : SignatureConfig :=
      { typ := SignatureType.CertGeneric, pub_alg := key.algorithm,
        hashed_subpackets := hashed_subpackets,
        unhashed_subpackets :=
          [Subpacket.Issuer kid, Subpacket.IssuerFingerprint key.fingerprint] }
    Run.bind
      (Run.ofExcept (config.sign_certificate eng pw id.tag (CertData.user id)))
      fun sig => Run.ok (id.into_signed sig)

/-- The non-primary user id closure of `KeyDetails::sign` (shared.rs lines
92-121): the same construction minus `IsPrimary` and minus
`RevocationKey`. -/
def certify_other_user {ε : Type} (eng : Engine ε) (now : Nat)
    (key : SecretKey) (pw : String) (keyflags : List Nat)
    (psa : List SymmetricKeyAlgorithm) (pha : List HashAlgorithm)
    (pca : List CompressionAlgorithm) (id : UserId) : Run ε SignedUser :=
  Run.bind (Run.expect key.key_id "missing key id") fun kid =>
    let config : SignatureConfig :=
      { typ := SignatureType.CertGeneric, pub_alg := key.algorithm,
        hashed_subpackets :=
          [Subpacket.SignatureCreationTime now,
           Subpacket.KeyFlags keyflags,
           Subpacket.PreferredSymmetricAlgorithms psa,
           Subpacket.PreferredHashAlgorithms pha,
           Subpacket.PreferredCompressionAlgorithms pca],
        unhashed_subpackets :=
          [Subpacket.Issuer kid, Subpacket.IssuerFingerprint key.fingerprint] }
    Run.bind
      (Run.ofExcept (config.sign_certificate eng pw id.tag (CertData.user id)))
      fun sig => Run.ok (id.into_signed sig)

/-- Modelled from the spec: `UserAttribute::sign` lives outside the
translated sources; §4.7 says user attributes are certified analogously — a
`CertGeneric` configuration with the creation time hashed, `Issuer` (with the
same missing-key-id panic) and `IssuerFingerprint` unhashed. -/
def UserAttribute.sign {ε : Type} (eng : Engine ε) (now : Nat)
    (key : SecretKey) (pw : String) (u : UserAttribute) :
    Run ε SignedUserAttribute :=
  Run.bind (Run.expect key.key_id "missing key id") fun kid =>
    let config : SignatureConfig :=
      { typ := SignatureType.CertGeneric, pub_alg := key.algorithm,
        hashed_subpackets := [Subpacket.SignatureCreationTime now],
        unhashed_subpackets :=
          [Subpacket.Issuer kid, Subpacket.IssuerFingerprint key.fingerprint] }
    Run.bind
      (Run.ofExcept (config.sign_certificate eng pw u.tag (CertData.attr u)))
      fun sig => Run.ok { attr := u, sig := sig }

/-- The `KeyDetails::sign` method (shared.rs lines 48-135): certify the
primary user id, then the remaining user ids in order, then the user
attributes in order, and only then assemble the `SignedKeyDetails` with
defaulted (empty) revocation and direct signature lists. -/
def KeyDetails.sign {ε : Type} (eng : Engine ε) (now : Nat) (kd : KeyDetails)
    (key : SecretKey) (pw : String) : Run ε SignedKeyDetails :=
  Run.bind
    (certify_primary_user eng now key pw kd.keyflags
      kd.preferred_symmetric_algorithms kd.preferred_hash_algorithms
      kd.preferred_compression_algorithms kd.revocation_key kd.primary_user_id)
    fun primary =>
  Run.bind
    (Run.mapM
      (certify_other_user eng now key pw kd.keyflags
        kd.preferred_symmetric_algorithms kd.preferred_hash_algorithms
        kd.preferred_compression_algorithms)
      kd.user_ids)
    fun others =>
  Run.bind (Run.mapM (UserAttribute.sign eng now key pw) kd.user_attributes)
    fun user_attributes =>
  Run.ok
    { revocation_signatures := [], direct_signatures := [],
      users := primary :: others, user_attributes := user_attributes }

/-! ## Concrete evaluation inputs -/

/-- A concrete primary user id. -/
def exUserId : UserId := { id := "alice" }

/-- A concrete non-primary user id. -/
def exUserId2 : UserId := { id := "bob" }

/-- A concrete user attribute. -/
def exAttr : UserAttribute := { payload := [1, 2, 3] }

/-- A concrete 8-octet key id. -/
def exKeyId : KeyId := [1, 2, 3, 4, 5, 6, 7, 8]

/-- A concrete fingerprint. -/
def exFpr : List Nat := List.replicate 20 171

/-- A concrete signing key with a present key id. -/
def exKey : SecretKey :=
  { key_id := some exKeyId, fingerprint := exFpr, algorithm := PublicKeyAlgorithm.RSA }

/-- A concrete signing key whose key id is missing. -/
def exKeyNoId : SecretKey :=
  { key_id := none, fingerprint := exFpr, algorithm := PublicKeyAlgorithm.RSA }

/-- A concrete revocation key. -/
def exRevKey : RevocationKey :=
  { cls := 128, algorithm := 1, fingerprint := List.replicate 20 7 }

/-- A concrete `KeyDetails` with one extra user id and one attribute. -/
def exKd : KeyDetails :=
  { primary_user_id := exUserId, user_ids := [exUserId2],
    user_attributes := [exAttr], keyflags := [3],
    preferred_symmetric_algorithms := [SymmetricKeyAlgorithm.AES128],
    preferred_hash_algorithms := [HashAlgorithm.SHA256],
    preferred_compression_algorithms := [CompressionAlgorithm.ZLIB],
    revocation_key := some exRevKey }

/-- An engine that always signs, yielding the MPI octets `[42]`. -/
def exEngineOk : Engine String := fun _ _ _ _ => Except.ok [42]

/-- An engine that always fails with the error string "boom". -/
def exEngineFail : Engine String := fun _ _ _ _ => Except.error "boom"

/-- The signature the always-ok engine produces for the primary user id of
`exKd`. -/
def exPrimarySig : Signature :=
  { typ := SignatureType.CertGeneric, pub_alg := PublicKeyAlgorithm.RSA,
    hashed_subpackets :=
      [Subpacket.IsPrimary true, Subpacket.SignatureCreationTime 0,
       Subpacket.KeyFlags [3],
       Subpacket.PreferredSymmetricAlgorithms [SymmetricKeyAlgorithm.AES128],
       Subpacket.PreferredHashAlgorithms [HashAlgorithm.SHA256],
       Subpacket.PreferredCompressionAlgorithms [CompressionAlgorithm.ZLIB],
       Subpacket.RevocationKey exRevKey],
    unhashed_subpackets :=
      [Subpacket.Issuer exKeyId, Subpacket.IssuerFingerprint exFpr],
    sig_bytes := [42] }

/-- The signature the always-ok engine produces for the non-primary user id
of `exKd`. -/
def exOtherSig : Signature :=
  { typ := SignatureType.CertGeneric, pub_alg := PublicKeyAlgorithm.RSA,
    hashed_subpackets :=
      [Subpacket.SignatureCreationTime 0,
       Subpacket.KeyFlags [3],
       Subpacket.PreferredSymmetricAlgorithms [SymmetricKeyAlgorithm.AES128],
       Subpacket.PreferredHashAlgorithms [HashAlgorithm.SHA256],
       Subpacket.PreferredCompressionAlgorithms [CompressionAlgorithm.ZLIB]],
    unhashed_subpackets :=
      [Subpacket.Issuer exKeyId, Subpacket.IssuerFingerprint exFpr],
    sig_bytes := [42] }

/-- The signature the always-ok engine produces for the user attribute of
`exKd`. -/
def exAttrSig : Signature :=
  { typ := SignatureType.CertGeneric, pub_alg := PublicKeyAlgorithm.RSA,
    hashed_subpackets := [Subpacket.SignatureCreationTime 0],
    unhashed_subpackets :=
      [Subpacket.Issuer exKeyId, Subpacket.IssuerFingerprint exFpr],
    sig_bytes := [42] }

/-- The `SignedKeyDetails` that signing `exKd` with `exKey` and the
always-ok engine at time 0 yields. -/
def exSignedKd : SignedKeyDetails :=
  { revocation_signatures := [], direct_signatures := [],
    users := [{ id := exUserId, sig := exPrimarySig },
              { id := exUserId2, sig := exOtherSig }],
    user_attributes := [{ attr := exAttr, sig := exAttrSig }] }

/-! ## Helper lemmas on the outcome monad -/

theorem Run.ok_bind {ε α β : Type} {a : α} {f : α → Run ε β} :
    Run.bind (Run.ok a) f = f a := rfl

theorem Run.err_bind {ε α β : Type} {e : ε} {f : α → Run ε β} :
    Run.bind (Run.err e) f = Run.err e := rfl

theorem Run.abort_bind {ε α β : Type} {m : String} {f : α → Run ε β} :
    Run.bind (Run.abort m) f = Run.abort m := rfl

theorem Run.bind_eq_ok {ε α β : Type} {x : Run ε α} {f : α → Run ε β} {b : β} :
    Run.bind x f = Run.ok b ↔ ∃ a, x = Run.ok a ∧ f a = Run.ok b := by
  cases x <;> simp [Run.bind]

theorem Run.bind_eq_err {ε α β : Type} {x : Run ε α} {f : α → Run ε β} {e : ε} :
    Run.bind x f = Run.err e ↔
      x = Run.err e ∨ ∃ a, x = Run.ok a ∧ f a = Run.err e := by
  cases x <;> simp [Run.bind]

theorem Run.bind_eq_abort {ε α β : Type} {x : Run ε α} {f : α → Run ε β} {m : String} :
    Run.bind x f = Run.abort m ↔
      x = Run.abort m ∨ ∃ a, x = Run.ok a ∧ f a = Run.abort m := by
  cases x <;> simp [Run.bind]

theorem Run.ofExcept_bind_ok {ε α β : Type} {x : Except ε α} {f : α → Run ε β} {b : β} :
    Run.bind (Run.ofExcept x) f = Run.ok b ↔ ∃ a, x = Except.ok a ∧ f a = Run.ok b := by
  cases x <;> simp [Run.ofExcept, Run.bind]

theorem Run.ofExcept_bind_err {ε α β : Type} {x : Except ε α} {f : α → Run ε β} {e : ε} :
    Run.bind (Run.ofExcept x) f = Run.err e ↔
      x = Except.error e ∨ ∃ a, x = Except.ok a ∧ f a = Run.err e := by
  cases x <;> simp [Run.ofExcept, Run.bind]

theorem Run.mapM_cons_ok {ε α β : Type} {f : α → Run ε β} {a : α} {l : List α} {ys : List β} :
    Run.mapM f (a :: l) = Run.ok ys ↔
      ∃ b bs, f a = Run.ok b ∧ Run.mapM f l = Run.ok bs ∧ ys = b :: bs := by
  rw [Run.mapM, Run.bind_eq_ok]
  constructor
  · rintro ⟨b, hb, h2⟩
    rw [Run.bind_eq_ok] at h2
    obtain ⟨bs, hbs, h3⟩ := h2
    refine ⟨b, bs, hb, hbs, ?_⟩
    injection h3 with h4
    exact h4.symm
  · rintro ⟨b, bs, hb, hbs, rfl⟩
    exact ⟨b, hb, by rw [Run.bind_eq_ok]; exact ⟨bs, hbs, rfl⟩⟩

theorem Run.mapM_ok_length {ε α β : Type} {f : α → Run ε β} {l : List α} {ys : List β}
    (h : Run.mapM f l = Run.ok ys) : ys.length = l.length := by
  induction l generalizing ys with
  | nil =>
      rw [Run.mapM] at h
      injection h with h2
      simp [← h2]
  | cons a rest ih =>
      rw [Run.mapM_cons_ok] at h
      obtain ⟨b, bs, _, hbs, rfl⟩ := h
      simp [ih hbs]

theorem Run.mapM_ok_mem {ε α β : Type} {f : α → Run ε β} {l : List α} {ys : List β}
    (h : Run.mapM f l = Run.ok ys) : ∀ y ∈ ys, ∃ a, a ∈ l ∧ f a = Run.ok y := by
  induction l generalizing ys with
  | nil =>
      rw [Run.mapM] at h
      injection h with h2
      subst h2
      intro y hy
      cases hy
  | cons a rest ih =>
      rw [Run.mapM_cons_ok] at h
      obtain ⟨b, bs, hb, hbs, rfl⟩ := h
      intro y hy
      rcases List.mem_cons.mp hy with rfl | hy2
      · exact ⟨a, List.mem_cons_self a rest, hb⟩
      · obtain ⟨a2, ha2, hfa2⟩ := ih hbs y hy2
        exact ⟨a2, List.mem_cons_of_mem a ha2, hfa2⟩

theorem Run.mapM_ok_forall {ε α β : Type} {f : α → Run ε β} {l : List α} {ys : List β}
    (h : Run.mapM f l = Run.ok ys) : ∀ a ∈ l, ∃ y, f a = Run.ok y := by
  induction l generalizing ys with
  | nil => intro a ha; cases ha
  | cons a rest ih =>
      rw [Run.mapM_cons_ok] at h
      obtain ⟨b, bs, hb, hbs, rfl⟩ := h
      intro a2 ha2
      rcases List.mem_cons.mp ha2 with rfl | ha3
      · exact ⟨b, hb⟩
      · exact ih hbs a2 ha3

theorem Run.mapM_ok_map {ε α β : Type} {f : α → Run ε β} (g : β → α)
    (hg : ∀ a y, f a = Run.ok y → g y = a) {l : List α} {ys : List β}
    (h : Run.mapM f l = Run.ok ys) : List.map g ys = l := by
  induction l generalizing ys with
  | nil =>
      rw [Run.mapM] at h
      injection h with h2
      simp [← h2]
  | cons a rest ih =>
      rw [Run.mapM_cons_ok] at h
      obtain ⟨b, bs, hb, hbs, rfl⟩ := h
      simp [hg a b hb, ih hbs]

theorem Run.mapM_err_mem {ε α β : Type} {f : α → Run ε β} {l : List α} {e : ε}
    (h : Run.mapM f l = Run.err e) : ∃ a, a ∈ l ∧ f a = Run.err e := by
  induction l with
  | nil => rw [Run.mapM] at h; cases h
  | cons a rest ih =>
      rw [Run.mapM, Run.bind_eq_err] at h
      rcases h with h1 | ⟨b, _, h2⟩
      · exact ⟨a, List.mem_cons_self a rest, h1⟩
      · rw [Run.bind_eq_err] at h2
        rcases h2 with h3 | ⟨bs, _, h4⟩
        · obtain ⟨a2, ha2, hfa2⟩ := ih h3
          exact ⟨a2, List.mem_cons_of_mem a ha2, hfa2⟩
        · cases h4

theorem Run.mapM_not_abort {ε α β : Type} {f : α → Run ε β} {l : List α}
    (hf : ∀ a ∈ l, ∀ m, f a ≠ Run.abort m) : ∀ m, Run.mapM f l ≠ Run.abort m := by
  induction l with
  | nil => intro m h; rw [Run.mapM] at h; cases h
  | cons a rest ih =>
      intro m h
      rw [Run.mapM, Run.bind_eq_abort] at h
      rcases h with h1 | ⟨b, _, h2⟩
      · exact hf a (List.mem_cons_self a rest) m h1
      · rw [Run.bind_eq_abort] at h2
        rcases h2 with h3 | ⟨bs, _, h4⟩
        · exact ih (fun a2 ha2 => hf a2 (List.mem_cons_of_mem a ha2)) m h3
        · cases h4

/-! ## Helper lemmas on the certification functions -/

theorem sign_certificate_ok_iff {ε : Type} {eng : Engine ε} {config : SignatureConfig}
    {pw : String} {tag : Tag} {data : CertData} {sig : Signature} :
    SignatureConfig.sign_certificate eng config pw tag data = Except.ok sig ↔
      ∃ mpis, eng config pw tag data = Except.ok mpis ∧
        sig = { typ := config.typ, pub_alg := config.pub_alg,
                hashed_subpackets := config.hashed_subpackets,
                unhashed_subpackets := config.unhashed_subpackets,
                sig_bytes := mpis } := by
  cases hE : eng config pw tag data with
  | error e => simp [SignatureConfig.sign_certificate, hE]
  | ok mpis =>
      simp only [SignatureConfig.sign_certificate, hE]
      constructor
      · intro h
        injection h with h2
        exact ⟨mpis, rfl, h2.symm⟩
      · rintro ⟨mpis2, h2, rfl⟩
        injection h2 with h3
        rw [h3]

theorem certify_primary_user_ok_spec {ε : Type} {eng : Engine ε} {now : Nat}
    {key : SecretKey} {pw : String} {kf : List Nat}
    {psa : List SymmetricKeyAlgorithm} {pha : List HashAlgorithm}
    {pca : List CompressionAlgorithm} {rkey : Option RevocationKey}
    {id : UserId} {u : SignedUser}
    (h : certify_primary_user eng now key pw kf psa pha pca rkey id = Run.ok u) :
    ∃ kid, key.key_id = some kid ∧ u.id = id ∧
      u.sig.typ = SignatureType.CertGeneric ∧ u.sig.pub_alg = key.algorithm ∧
      u.sig.hashed_subpackets =
        [Subpacket.IsPrimary true, Subpacket.SignatureCreationTime now,
         Subpacket.KeyFlags kf, Subpacket.PreferredSymmetricAlgorithms psa,
         Subpacket.PreferredHashAlgorithms pha,
         Subpacket.PreferredCompressionAlgorithms pca] ++
          rkeySubpackets rkey ∧
      u.sig.unhashed_subpackets =
        [Subpacket.Issuer kid, Subpacket.IssuerFingerprint key.fingerprint] := by
  cases hk : key.key_id with
  | none => simp [certify_primary_user, hk, Run.expect, Run.abort_bind] at h
  | some kid =>
      simp only [certify_primary_user, hk, Run.expect, Run.ok_bind] at h
      rw [Run.ofExcept_bind_ok] at h
      obtain ⟨sig, hsig, hu⟩ := h
      rw [sign_certificate_ok_iff] at hsig
      obtain ⟨mpis, _, rfl⟩ := hsig
      injection hu with h2
      subst h2
      exact ⟨kid, rfl, rfl, rfl, rfl, rfl, rfl⟩

theorem certify_other_user_ok_spec {ε : Type} {eng : Engine ε} {now : Nat}
    {key : SecretKey} {pw : String} {kf : List Nat}
    {psa : List SymmetricKeyAlgorithm} {pha : List HashAlgorithm}
    {pca : List CompressionAlgorithm} {id : UserId} {u : SignedUser}
    (h : certify_other_user eng now key pw kf psa pha pca id = Run.ok u) :
    ∃ kid, key.key_id = some kid ∧ u.id = id ∧
      u.sig.typ = SignatureType.CertGeneric ∧ u.sig.pub_alg = key.algorithm ∧
      u.sig.hashed_subpackets =
        [Subpacket.SignatureCreationTime now,
         Subpacket.KeyFlags kf, Subpacket.PreferredSymmetricAlgorithms psa,
         Subpacket.PreferredHashAlgorithms pha,
         Subpacket.PreferredCompressionAlgorithms pca] ∧
      u.sig.unhashed_subpackets =
        [Subpacket.Issuer kid, Subpacket.IssuerFingerprint key.fingerprint] := by
  cases hk : key.key_id with
  | none => simp [certify_other_user, hk, Run.expect, Run.abort_bind] at h
  | some kid =>
      simp only [certify_other_user, hk, Run.expect, Run.ok_bind] at h
      rw [Run.ofExcept_bind_ok] at h
      obtain ⟨sig, hsig, hu⟩ := h
      rw [sign_certificate_ok_iff] at hsig
      obtain ⟨mpis, _, rfl⟩ := hsig
      injection hu with h2
      subst h2
      exact ⟨kid, rfl, rfl, rfl, rfl, rfl, rfl⟩

theorem userAttribute_sign_ok_spec {ε : Type} {eng : Engine ε} {now : Nat}
    {key : SecretKey} {pw : String} {a : UserAttribute} {s : SignedUserAttribute}
    (h : UserAttribute.sign eng now key pw a = Run.ok s) : s.attr = a := by
  cases hk : key.key_id with
  | none => simp [UserAttribute.sign, hk, Run.expect, Run.abort_bind] at h
  | some kid =>
      simp only [UserAttribute.sign, hk, Run.expect, Run.ok_bind] at h
      rw [Run.ofExcept_bind_ok] at h
      obtain ⟨sig, _, hu⟩ := h
      injection hu with h2
      subst h2
      rfl

theorem certify_primary_user_none {ε : Type} {eng : Engine ε} {now : Nat}
    {key : SecretKey} {pw : String} {kf : List Nat}
    {psa : List SymmetricKeyAlgorithm} {pha : List HashAlgorithm}
    {pca : List CompressionAlgorithm} {rkey : Option RevocationKey} {id : UserId}
    (hk : key.key_id = none) :
    certify_primary_user eng now key pw kf psa pha pca rkey id =
      Run.abort "missing key id" := by
  simp [certify_primary_user, hk, Run.expect, Run.abort_bind]

theorem certify_other_user_none {ε : Type} {eng : Engine ε} {now : Nat}
    {key : SecretKey} {pw : String} {kf : List Nat}
    {psa : List SymmetricKeyAlgorithm} {pha : List HashAlgorithm}
    {pca : List CompressionAlgorithm} {id : UserId}
    (hk : key.key_id = none) :
    certify_other_user eng now key pw kf psa pha pca id =
      Run.abort "missing key id" := by
  simp [certify_other_user, hk, Run.expect, Run.abort_bind]

theorem certify_primary_user_not_abort {ε : Type} {eng : Engine ε} {now : Nat}
    {key : SecretKey} {pw : String} {kf : List Nat}
    {psa : List SymmetricKeyAlgorithm} {pha : List HashAlgorithm}
    {pca : List CompressionAlgorithm} {rkey : Option RevocationKey} {id : UserId}
    {kid : KeyId} (hk : key.key_id = some kid) :
    ∀ m, certify_primary_user eng now key pw kf psa pha pca rkey id ≠ Run.abort m := by
  intro m h
  simp only [certify_primary_user, hk, Run.expect, Run.ok_bind] at h
  rw [Run.bind_eq_abort] at h
  rcases h with h1 | ⟨a, _, h2⟩
  · revert h1
    cases SignatureConfig.sign_certificate eng _ pw id.tag (CertData.user id) <;>
      simp [Run.ofExcept]
  · cases h2

theorem certify_other_user_not_abort {ε : Type} {eng : Engine ε} {now : Nat}
    {key : SecretKey} {pw : String} {kf : List Nat}
    {psa : List SymmetricKeyAlgorithm} {pha : List HashAlgorithm}
    {pca : List CompressionAlgorithm} {id : UserId}
    {kid : KeyId} (hk : key.key_id = some kid) :
    ∀ m, certify_other_user eng now key pw kf psa pha pca id ≠ Run.abort m := by
  intro m h
  simp only [certify_other_user, hk, Run.expect, Run.ok_bind] at h
  rw [Run.bind_eq_abort] at h
  rcases h with h1 | ⟨a, _, h2⟩
  · revert h1
    cases SignatureConfig.sign_certificate eng _ pw id.tag (CertData.user id) <;>
      simp [Run.ofExcept]
  · cases h2

theorem userAttribute_sign_not_abort {ε : Type} {eng : Engine ε} {now : Nat}
    {key : SecretKey} {pw : String} {a : UserAttribute}
    {kid : KeyId} (hk : key.key_id = some kid) :
    ∀ m, UserAttribute.sign eng now key pw a ≠ Run.abort m := by
  intro m h
  simp only [UserAttribute.sign, hk, Run.expect, Run.ok_bind] at h
  rw [Run.bind_eq_abort] at h
  rcases h with h1 | ⟨s, _, h2⟩
  · revert h1
    cases SignatureConfig.sign_certificate eng _ pw a.tag (CertData.attr a) <;>
      simp [Run.ofExcept]
  · cases h2

theorem keyDetails_sign_ok_parts {ε : Type} {eng : Engine ε} {now : Nat}
    {kd : KeyDetails} {key : SecretKey} {pw : String} {skd : SignedKeyDetails}
    (h : KeyDetails.sign eng now kd key pw = Run.ok skd) :
    ∃ primary others uas,
      certify_primary_user eng now key pw kd.keyflags
        kd.preferred_symmetric_algorithms kd.preferred_hash_algorithms
        kd.preferred_compression_algorithms kd.revocation_key
        kd.primary_user_id = Run.ok primary ∧
      Run.mapM
        (certify_other_user eng now key pw kd.keyflags
          kd.preferred_symmetric_algorithms kd.preferred_hash_algorithms
          kd.preferred_compression_algorithms)
        kd.user_ids = Run.ok others ∧
      Run.mapM (UserAttribute.sign eng now key pw) kd.user_attributes = Run.ok uas ∧
      skd = { revocation_signatures := [], direct_signatures := [],
              users := primary :: others, user_attributes := uas } := by
  simp only [KeyDetails.sign] at h
  rw [Run.bind_eq_ok] at h
  obtain ⟨primary, hp, h2⟩ := h
  rw [Run.bind_eq_ok] at h2
  obtain ⟨others, ho, h3⟩ := h2
  rw [Run.bind_eq_ok] at h3
  obtain ⟨uas, ha, h4⟩ := h3
  injection h4 with h5
  exact ⟨primary, others, uas, hp, ho, ha, h5.symm⟩

theorem keyDetails_sign_not_abort {ε : Type} {eng : Engine ε} {now : Nat}
    {kd : KeyDetails} {key : SecretKey} {pw : String} {kid : KeyId}
    (hk : key.key_id = some kid) :
    ∀ m, KeyDetails.sign eng now kd key pw ≠ Run.abort m := by
  intro m h
  simp only [KeyDetails.sign] at h
  rw [Run.bind_eq_abort] at h
  rcases h with h1 | ⟨primary, _, h2⟩
  · exact certify_primary_user_not_abort hk m h1
  · rw [Run.bind_eq_abort] at h2
    rcases h2 with h3 | ⟨others, _, h4⟩
    · exact Run.mapM_not_abort (fun a _ => certify_other_user_not_abort hk) m h3
    · rw [Run.bind_eq_abort] at h4
      rcases h4 with h5 | ⟨uas, _, h6⟩
      · exact Run.mapM_not_abort (fun a _ => userAttribute_sign_not_abort hk) m h5
      · cases h6

/-! ## Claim theorems -/

/-- C1: when `KeyDetails::sign` succeeds, the certification of the primary
user id has type CertGeneric and carries exactly the hashed subpackets
IsPrimary(true), SignatureCreationTime(now), KeyFlags and the three
preference lists, plus RevocationKey exactly when the `KeyDetails` has one;
each non-primary certification carries the same set minus IsPrimary and
minus RevocationKey; and every certification carries exactly the unhashed
subpackets Issuer(key id) and IssuerFingerprint. -/
theorem keyDetails_sign_certification_subpackets {ε : Type} (eng : Engine ε)
    (now : Nat) (kd : KeyDetails) (key : SecretKey) (pw : String)
    (skd : SignedKeyDetails)
    (h : KeyDetails.sign eng now kd key pw = Run.ok skd) :
    ∃ kid, key.key_id = some kid ∧
      ∃ prim rest, skd.users = prim :: rest ∧
        prim.sig.typ = SignatureType.CertGeneric ∧
        prim.sig.hashed_subpackets =
          [Subpacket.IsPrimary true, Subpacket.SignatureCreationTime now,
           Subpacket.KeyFlags kd.keyflags,
           Subpacket.PreferredSymmetricAlgorithms kd.preferred_symmetric_algorithms,
           Subpacket.PreferredHashAlgorithms kd.preferred_hash_algorithms,
           Subpacket.PreferredCompressionAlgorithms kd.preferred_compression_algorithms] ++
            rkeySubpackets kd.revocation_key ∧
        prim.sig.unhashed_subpackets =
          [Subpacket.Issuer kid, Subpacket.IssuerFingerprint key.fingerprint] ∧
        ∀ u ∈ rest,
          u.sig.typ = SignatureType.CertGeneric ∧
          u.sig.hashed_subpackets =
            [Subpacket.SignatureCreationTime now,
             Subpacket.KeyFlags kd.keyflags,
             Subpacket.PreferredSymmetricAlgorithms kd.preferred_symmetric_algorithms,
             Subpacket.PreferredHashAlgorithms kd.preferred_hash_algorithms,
             Subpacket.PreferredCompressionAlgorithms kd.preferred_compression_algorithms] ∧
          u.sig.unhashed_subpackets =
            [Subpacket.Issuer kid, Subpacket.IssuerFingerprint key.fingerprint] := by
  obtain ⟨primary, others, uas, hp, ho, _, rfl⟩ := keyDetails_sign_ok_parts h
  obtain ⟨kid, hk, _, htyp, _, hhash, hunh⟩ := certify_primary_user_ok_spec hp
  refine ⟨kid, hk, primary, others, rfl, htyp, hhash, hunh, ?_⟩
  intro u hu
  obtain ⟨a, _, hfa⟩ := Run.mapM_ok_mem ho u hu
  obtain ⟨kid2, hk2, _, htyp2, _, hhash2, hunh2⟩ := certify_other_user_ok_spec hfa
  rw [hk] at hk2
  injection hk2 with hk3
  subst hk3
  exact ⟨htyp2, hhash2, hunh2⟩

/-- C1 witness: the concrete `exKd` signed with `exKey` at time 0. -/
theorem keyDetails_sign_certification_subpackets_witness :
    ∃ kid, exKey.key_id = some kid ∧
      ∃ prim rest, exSignedKd.users = prim :: rest ∧
        prim.sig.typ = SignatureType.CertGeneric ∧
        prim.sig.hashed_subpackets =
          [Subpacket.IsPrimary true, Subpacket.SignatureCreationTime 0,
           Subpacket.KeyFlags exKd.keyflags,
           Subpacket.PreferredSymmetricAlgorithms exKd.preferred_symmetric_algorithms,
           Subpacket.PreferredHashAlgorithms exKd.preferred_hash_algorithms,
           Subpacket.PreferredCompressionAlgorithms exKd.preferred_compression_algorithms] ++
            rkeySubpackets exKd.revocation_key ∧
        prim.sig.unhashed_subpackets =
          [Subpacket.Issuer kid, Subpacket.IssuerFingerprint exKey.fingerprint] ∧
        ∀ u ∈ rest,
          u.sig.typ = SignatureType.CertGeneric ∧
          u.sig.hashed_subpackets =
            [Subpacket.SignatureCreationTime 0,
             Subpacket.KeyFlags exKd.keyflags,
             Subpacket.PreferredSymmetricAlgorithms exKd.preferred_symmetric_algorithms,
             Subpacket.PreferredHashAlgorithms exKd.preferred_hash_algorithms,
             Subpacket.PreferredCompressionAlgorithms exKd.preferred_compression_algorithms] ∧
          u.sig.unhashed_subpackets =
            [Subpacket.Issuer kid, Subpacket.IssuerFingerprint exKey.fingerprint] :=
  keyDetails_sign_certification_subpackets exEngineOk 0 exKd exKey "pw" exSignedKd (by rfl)

/-- C4: if any user-id or user-attribute certification fails,
`KeyDetails::sign` returns an error produced by one of the failing
certifications and yields no `SignedKeyDetails`; the Ok result exists only
when every certification succeeded. -/
theorem keyDetails_sign_error_propagation {ε : Type} (eng : Engine ε)
    (now : Nat) (kd : KeyDetails) (key : SecretKey) (pw : String) :
    (∀ skd, KeyDetails.sign eng now kd key pw = Run.ok skd →
      (∃ u, certify_primary_user eng now key pw kd.keyflags
          kd.preferred_symmetric_algorithms kd.preferred_hash_algorithms
          kd.preferred_compression_algorithms kd.revocation_key
          kd.primary_user_id = Run.ok u) ∧
      (∀ id ∈ kd.user_ids, ∃ u, certify_other_user eng now key pw kd.keyflags
          kd.preferred_symmetric_algorithms kd.preferred_hash_algorithms
          kd.preferred_compression_algorithms id = Run.ok u) ∧
      (∀ a ∈ kd.user_attributes, ∃ s, UserAttribute.sign eng now key pw a = Run.ok s)) ∧
    (∀ e, KeyDetails.sign eng now kd key pw = Run.err e →
      certify_primary_user eng now key pw kd.keyflags
          kd.preferred_symmetric_algorithms kd.preferred_hash_algorithms
          kd.preferred_compression_algorithms kd.revocation_key
          kd.primary_user_id = Run.err e ∨
      (∃ id, id ∈ kd.user_ids ∧ certify_other_user eng now key pw kd.keyflags
          kd.preferred_symmetric_algorithms kd.preferred_hash_algorithms
          kd.preferred_compression_algorithms id = Run.err e) ∨
      (∃ a, a ∈ kd.user_attributes ∧ UserAttribute.sign eng now key pw a = Run.err e)) ∧
    (∀ kid e0, key.key_id = some kid →
      (certify_primary_user eng now key pw kd.keyflags
          kd.preferred_symmetric_algorithms kd.preferred_hash_algorithms
          kd.preferred_compression_algorithms kd.revocation_key
          kd.primary_user_id = Run.err e0 ∨
       (∃ id, id ∈ kd.user_ids ∧ certify_other_user eng now key pw kd.keyflags
          kd.preferred_symmetric_algorithms kd.preferred_hash_algorithms
          kd.preferred_compression_algorithms id = Run.err e0) ∨
       (∃ a, a ∈ kd.user_attributes ∧ UserAttribute.sign eng now key pw a = Run.err e0)) →
      ∃ e, KeyDetails.sign eng now kd key pw = Run.err e ∧
        ∀ skd, KeyDetails.sign eng now kd key pw ≠ Run.ok skd) := by
  refine ⟨?_, ?_, ?_⟩
  · intro skd h
    obtain ⟨primary, others, uas, hp, ho, ha, _⟩ := keyDetails_sign_ok_parts h
    exact ⟨⟨primary, hp⟩, fun id hid => Run.mapM_ok_forall ho id hid,
      fun a haa => Run.mapM_ok_forall ha a haa⟩
  · intro e h
    simp only [KeyDetails.sign] at h
    rw [Run.bind_eq_err] at h
    rcases h with h1 | ⟨primary, _, h2⟩
    · exact Or.inl h1
    · rw [Run.bind_eq_err] at h2
      rcases h2 with h3 | ⟨others, _, h4⟩
      · obtain ⟨id, hid, hf⟩ := Run.mapM_err_mem h3
        exact Or.inr (Or.inl ⟨id, hid, hf⟩)
      · rw [Run.bind_eq_err] at h4
        rcases h4 with h5 | ⟨uas, _, h6⟩
        · obtain ⟨a, haa, hf⟩ := Run.mapM_err_mem h5
          exact Or.inr (Or.inr ⟨a, haa, hf⟩)
        · cases h6
  · intro kid e0 hk hfail
    cases hs : KeyDetails.sign eng now kd key pw with
    | abort m => exact absurd hs (keyDetails_sign_not_abort hk m)
    | err e => exact ⟨e, rfl, fun skd h' => Run.noConfusion h'⟩
    | ok skd =>
        exfalso
        obtain ⟨primary, others, uas, hp, ho, ha, _⟩ := keyDetails_sign_ok_parts hs
        rcases hfail with h1 | ⟨id, hid, h2⟩ | ⟨a, haa, h3⟩
        · rw [hp] at h1; cases h1
        · obtain ⟨y, hy⟩ := Run.mapM_ok_forall ho id hid
          rw [hy] at h2; cases h2
        · obtain ⟨y, hy⟩ := Run.mapM_ok_forall ha a haa
          rw [hy] at h3; cases h3

/-- C4 witness: the always-failing engine makes signing `exKd` return an
error and never an Ok value. -/
theorem keyDetails_sign_error_propagation_witness :
    ∃ e, KeyDetails.sign exEngineFail 0 exKd exKey "pw" = Run.err e ∧
      ∀ skd, KeyDetails.sign exEngineFail 0 exKd exKey "pw" ≠ Run.ok skd :=
  (keyDetails_sign_error_propagation exEngineFail 0 exKd exKey "pw").2.2 exKeyId "boom"
    (by rfl) (Or.inl (by rfl))

/-- C5: a missing key id on the signing key makes `KeyDetails::sign` abort
through the `expect` panic with message "missing key id" rather than return
an error value, and the same abort sits both in the primary and in the
non-primary certification path. -/
theorem keyDetails_sign_missing_key_id_aborts {ε : Type} (eng : Engine ε)
    (now : Nat) (kd : KeyDetails) (key : SecretKey) (pw : String)
    (kf : List Nat) (psa : List SymmetricKeyAlgorithm)
    (pha : List HashAlgorithm) (pca : List CompressionAlgorithm)
    (rkey : Option RevocationKey) (uid uid2 : UserId)
    (h : key.key_id = none) :
    KeyDetails.sign eng now kd key pw = Run.abort "missing key id" ∧
    certify_primary_user eng now key pw kf psa pha pca rkey uid =
      Run.abort "missing key id" ∧
    certify_other_user eng now key pw kf psa pha pca uid2 =
      Run.abort "missing key id" ∧
    ∀ e, KeyDetails.sign eng now kd key pw ≠ Run.err e := by
  have h1 : KeyDetails.sign eng now kd key pw = Run.abort "missing key id" := by
    simp only [KeyDetails.sign]
    rw [certify_primary_user_none h, Run.abort_bind]
  refine ⟨h1, certify_primary_user_none h, certify_other_user_none h, ?_⟩
  intro e he
  rw [h1] at he
  exact Run.noConfusion he

/-- C5 witness: the key with a missing key id aborts at concrete inputs. -/
theorem keyDetails_sign_missing_key_id_aborts_witness :
    KeyDetails.sign exEngineOk 0 exKd exKeyNoId "pw" = Run.abort "missing key id" ∧
    certify_primary_user exEngineOk 0 exKeyNoId "pw" [3] [SymmetricKeyAlgorithm.AES128]
      [HashAlgorithm.SHA256] [CompressionAlgorithm.ZLIB] (some exRevKey) exUserId =
        Run.abort "missing key id" ∧
    certify_other_user exEngineOk 0 exKeyNoId "pw" [3] [SymmetricKeyAlgorithm.AES128]
      [HashAlgorithm.SHA256] [CompressionAlgorithm.ZLIB] exUserId2 =
        Run.abort "missing key id" ∧
    ∀ e, KeyDetails.sign exEngineOk 0 exKd exKeyNoId "pw" ≠ Run.err e :=
  keyDetails_sign_missing_key_id_aborts exEngineOk 0 exKd exKeyNoId "pw" [3]
    [SymmetricKeyAlgorithm.AES128] [HashAlgorithm.SHA256] [CompressionAlgorithm.ZLIB]
    (some exRevKey) exUserId exUserId2 (by rfl)

/-- C8: a successful `KeyDetails::sign` always yields empty
`revocation_signatures` and empty `direct_signatures`. -/
theorem keyDetails_sign_empty_revocations_and_directs {ε : Type} (eng : Engine ε)
    (now : Nat) (kd : KeyDetails) (key : SecretKey) (pw : String)
    (skd : SignedKeyDetails)
    (h : KeyDetails.sign eng now kd key pw = Run.ok skd) :
    skd.revocation_signatures = [] ∧ skd.direct_signatures = [] := by
  obtain ⟨primary, others, uas, _, _, _, rfl⟩ := keyDetails_sign_ok_parts h
  exact ⟨rfl, rfl⟩

/-- C8 witness at the concrete inputs. -/
theorem keyDetails_sign_empty_revocations_and_directs_witness :
    exSignedKd.revocation_signatures = [] ∧ exSignedKd.direct_signatures = [] :=
  keyDetails_sign_empty_revocations_and_directs exEngineOk 0 exKd exKey "pw"
    exSignedKd (by rfl)

/-- C9: a successful `KeyDetails::sign` lists the certified primary user id
first and then the other user ids in their original order (so the user count
is one plus the non-primary count), and the attribute list keeps its order
and count. -/
theorem keyDetails_sign_preserves_order {ε : Type} (eng : Engine ε) (now : Nat)
    (kd : KeyDetails) (key : SecretKey) (pw : String) (skd : SignedKeyDetails)
    (h : KeyDetails.sign eng now kd key pw = Run.ok skd) :
    List.map SignedUser.id skd.users = kd.primary_user_id :: kd.user_ids ∧
    skd.users.length = 1 + kd.user_ids.length ∧
    List.map SignedUserAttribute.attr skd.user_attributes = kd.user_attributes ∧
    skd.user_attributes.length = kd.user_attributes.length := by
  obtain ⟨primary, others, uas, hp, ho, ha, rfl⟩ := keyDetails_sign_ok_parts h
  obtain ⟨kid, _, hid, _⟩ := certify_primary_user_ok_spec hp
  have hothers : List.map SignedUser.id others = kd.user_ids :=
    Run.mapM_ok_map SignedUser.id
      (fun a y hy => by
        obtain ⟨_, _, h2, _⟩ := certify_other_user_ok_spec hy
        exact h2) ho
  have hattrs : List.map SignedUserAttribute.attr uas = kd.user_attributes :=
    Run.mapM_ok_map SignedUserAttribute.attr
      (fun a y hy => userAttribute_sign_ok_spec hy) ha
  refine ⟨?_, ?_, hattrs, ?_⟩
  · simp [hid, hothers]
  · have := Run.mapM_ok_length ho
    simp only [List.length_cons]
    omega
  · have h2 := congrArg List.length hattrs
    simpa using h2

/-- C9 witness at the concrete inputs. -/
theorem keyDetails_sign_preserves_order_witness :
    List.map SignedUser.id exSignedKd.users = exKd.primary_user_id :: exKd.user_ids ∧
    exSignedKd.users.length = 1 + exKd.user_ids.length ∧
    List.map SignedUserAttribute.attr exSignedKd.user_attributes = exKd.user_attributes ∧
    exSignedKd.user_attributes.length = exKd.user_attributes.length :=
  keyDetails_sign_preserves_order exEngineOk 0 exKd exKey "pw" exSignedKd (by rfl)

/-- C2: ECDH serialization ends with the fixed KDF descriptor octets
`03 01 <hash> <sym>` immediately after the OID block and the point MPI, and
for curve 25519 with SHA256 and AES128 the trailing four octets are
`03 01 08 07`. -/
theorem publicParams_ecdh_trailer :
    (∀ (curve : ECCCurve) (p : List Nat) (hash : HashAlgorithm)
        (alg_sym : SymmetricKeyAlgorithm),
      (PublicParams.ECDH curve p hash alg_sym).to_writer =
        ([curve.oid.length % 256] ++ curve.oid ++ write_mpi p) ++
          [3, 1, hash.toU8, alg_sym.toU8]) ∧
    (∀ p : List Nat, ∃ pre : List Nat,
      (PublicParams.ECDH curve25519 p HashAlgorithm.SHA256
          SymmetricKeyAlgorithm.AES128).to_writer = pre ++ [3, 1, 8, 7]) :=
  ⟨fun curve p hash alg_sym => by
      simp [PublicParams.to_writer, List.append_assoc],
    fun p =>
      ⟨[curve25519.oid.length % 256] ++ curve25519.oid ++ write_mpi p, by
        simp [PublicParams.to_writer, HashAlgorithm.toU8, SymmetricKeyAlgorithm.toU8,
          List.append_assoc]⟩⟩

/-- C3: `PublicParams::to_writer` dispatches on the variant tag and emits
exactly: for RSA the MPIs n then e; for DSA p, q, g, y; for Elgamal p, g, y;
and for ECDSA and EdDSA one octet of OID length, the OID octets, then one
opaque MPI of the point.  The last conjunct evaluates the DSA arm on
concrete values. -/
theorem publicParams_to_writer_layout :
    (∀ n e : Nat, (PublicParams.RSA n e).to_writer =
      write_bignum_mpi n ++ write_bignum_mpi e) ∧
    (∀ p q g y : Nat, (PublicParams.DSA p q g y).to_writer =
      write_bignum_mpi p ++ write_bignum_mpi q ++ write_bignum_mpi g ++
        write_bignum_mpi y) ∧
    (∀ p g y : Nat, (PublicParams.Elgamal p g y).to_writer =
      write_bignum_mpi p ++ write_bignum_mpi g ++ write_bignum_mpi y) ∧
    (∀ (curve : ECCCurve) (p : List Nat), (PublicParams.ECDSA curve p).to_writer =
      [curve.oid.length % 256] ++ curve.oid ++ write_mpi p) ∧
    (∀ (curve : ECCCurve) (q : List Nat), (PublicParams.EdDSA curve q).to_writer =
      [curve.oid.length % 256] ++ curve.oid ++ write_mpi q) ∧
    (PublicParams.DSA 7 5 3 2).to_writer =
      [0, 3, 7, 0, 3, 5, 0, 2, 3, 0, 2, 2] :=
  ⟨fun _ _ => rfl, fun _ _ _ _ => rfl, fun _ _ _ => rfl, fun _ _ => rfl,
    fun _ _ => rfl, by decide⟩

/-- C6: the Debug formatter for `PublicParams::DSA` prints the hex of `y`
under the field name `g` and the hex of `g` under the field name `y`, while
`p` and `q` keep their own names; the serializer emits `p, q, g, y`
unswapped.  The last conjunct shows the swap on concrete values. -/
theorem publicParams_dsa_debug_swap :
    (∀ p q g y : Nat,
      (PublicParams.DSA p q g y).debugStruct =
        ("PublicParams::DSA",
          [("p", DebugValue.str (hexEncode (toBytesBe p))),
           ("q", DebugValue.str (hexEncode (toBytesBe q))),
           ("g", DebugValue.str (hexEncode (toBytesBe y))),
           ("y", DebugValue.str (hexEncode (toBytesBe g)))]) ∧
      (PublicParams.DSA p q g y).to_writer =
        write_bignum_mpi p ++ write_bignum_mpi q ++ write_bignum_mpi g ++
          write_bignum_mpi y) ∧
    (PublicParams.DSA 2 3 5 7).debugStruct.2 =
      [("p", DebugValue.str "02"), ("q", DebugValue.str "03"),
       ("g", DebugValue.str "07"), ("y", DebugValue.str "05")] :=
  ⟨fun _ _ _ _ => ⟨rfl, rfl⟩, by decide⟩

set_option maxRecDepth 4096 in
/-- C7: conversion of an octet to `PublicKeyAlgorithm` succeeds exactly for
the tags 1, 2, 3, 16, 17, 18, 19, 20, 21, 22 and 100 through 110, and for no
other octet. -/
theorem publicKeyAlgorithm_from_u8_closed_set :
    ∀ n : Fin 256, (PublicKeyAlgorithm.from_u8 n.val).isSome = true ↔
      (n.val = 1 ∨ n.val = 2 ∨ n.val = 3 ∨ n.val = 16 ∨ n.val = 17 ∨
       n.val = 18 ∨ n.val = 19 ∨ n.val = 20 ∨ n.val = 21 ∨ n.val = 22 ∨
       (100 ≤ n.val ∧ n.val ≤ 110)) := by decide

/-- C10: the Debug formatter for `PublicParams::Elgamal` also swaps `g` and
`y` — the hex of `y` prints under the field name `g` and the hex of `g`
under `y` — while the serializer emits `p, g, y` unswapped.  The last
conjunct shows the swap on concrete values. -/
theorem publicParams_elgamal_debug_swap :
    (∀ p g y : Nat,
      (PublicParams.Elgamal p g y).debugStruct =
        ("PublicParams::Elgamal",
          [("p", DebugValue.str (hexEncode (toBytesBe p))),
           ("g", DebugValue.str (hexEncode (toBytesBe y))),
           ("y", DebugValue.str (hexEncode (toBytesBe g)))]) ∧
      (PublicParams.Elgamal p g y).to_writer =
        write_bignum_mpi p ++ write_bignum_mpi g ++ write_bignum_mpi y) ∧
    (PublicParams.Elgamal 2 5 7).debugStruct.2 =
      [("p", DebugValue.str "02"), ("g", DebugValue.str "07"),
       ("y", DebugValue.str "05")] :=
  ⟨fun _ _ _ => ⟨rfl, rfl⟩, by decide⟩
